import Mathlib

/-!
Verification of the storage engine of a portfolio CMS.

The storage engine has two implementations behind one interface:
a transient in-process store (`MemStorage` in src/server/storage.ts,
backed by JS `Map`s and sequential counters) and a database-backed
store (`DatabaseStorage`, backed by a relational schema declared in
src/shared/schema.ts).  This file embeds both: the `MemStorage`
operations are translated field by field from src/server/storage.ts;
the `db*` functions model the `DatabaseStorage` methods as executed
against the declared schema (column defaults, the UNIQUE constraint
on `projects.slug`, single-statement UPDATE/INSERT semantics).

Timestamps (`new Date()` in the source) are modelled as an explicit
`now : Nat` argument threaded into every operation that stamps a time.
JS `Map`s are modelled as association lists: `Map.set` replaces an
existing key in place and otherwise appends (JS maps preserve
insertion order), `Map.delete` removes the entry and is silent on a
missing key.  Optional / nullable fields are `Option`s, with `none`
standing for an absent key or a `null` value.
-/

namespace PortfolioStorage

/-- JS coercion `x || null` on an optional string: `undefined` and `null`
map to `null`, and so does the empty string, because `""` is falsy in JS.
Any other string is kept. -/
def strOrNull : Option String → Option String
  | none => none
  | some s => if s = "" then none else some s

/-- JS coercion `x || d` on an optional string with a string default:
an absent value or the (falsy) empty string falls back to `d`. -/
def strOrD (x : Option String) (d : String) : String :=
  match x with
  | none => d
  | some s => if s = "" then d else s

/-- JS coercion `tags || null` on an optional string array.  An empty
array is truthy in JS, so the coercion only turns an absent field into
`null`; on `Option` that is the identity. -/
def listOrNull (x : Option (List String)) : Option (List String) :=
  x

/-- JS truthiness test `!x` on an optional string: true for `undefined`,
`null` and the empty string. -/
def strFalsy : Option String → Bool
  | none => true
  | some s => s = ""

/-- Lookup in an association list, modelling `Map.get`. -/
def lookupEntry {κ α : Type} [DecidableEq κ] (k : κ) : List (κ × α) → Option α
  | [] => none
  | (k', v) :: rest => if k' = k then some v else lookupEntry k rest

/-- Update in an association list, modelling `Map.set`: replace the entry
in place when the key is present, append otherwise (JS maps keep
insertion order). -/
def setEntry {κ α : Type} [DecidableEq κ] (k : κ) (v : α) : List (κ × α) → List (κ × α)
  | [] => [(k, v)]
  | (k', v') :: rest => if k' = k then (k, v) :: rest else (k', v') :: setEntry k v rest

/-- Removal from an association list, modelling `Map.delete`: drops the
entry for the key when present, silently does nothing otherwise. -/
def delEntry {κ α : Type} [DecidableEq κ] (k : κ) : List (κ × α) → List (κ × α)
  | [] => []
  | (k', v') :: rest => if k' = k then rest else (k', v') :: delEntry k rest

/-- A stored user record (`users` table / `User` type in
src/shared/schema.ts).  The timestamp columns are modelled as `Nat`;
both storage implementations always stamp them on write. -/
structure User where
  id : String
  email : Option String
  firstName : Option String
  lastName : Option String
  profileImageUrl : Option String
  createdAt : Nat
  updatedAt : Nat
deriving Repr, DecidableEq

/-- The upsert payload (`UpsertUser` in src/shared/schema.ts: the users
insert schema with the timestamp columns omitted).  Every remaining
column is optional there (`id` has a database-side default), so every
field is an `Option`; `none` stands for an absent key. -/
structure UpsertUser where
  id : Option String
  email : Option String
  firstName : Option String
  lastName : Option String
  profileImageUrl : Option String
deriving Repr, DecidableEq

/-- A stored project record (`projects` table / `Project` type in
src/shared/schema.ts). -/
structure Project where
  id : Nat
  title : String
  slug : String
  description : String
  content : String
  featuredImage : Option String
  category : String
  tags : Option (List String)
  status : String
  authorId : Option String
  createdAt : Nat
  updatedAt : Nat
deriving Repr, DecidableEq

/-- The project creation payload (`InsertProject` in
src/shared/schema.ts: the projects insert schema, which omits `id`,
`createdAt` and `updatedAt`).  `status` is optional because the column
has a default. -/
structure InsertProject where
  title : String
  slug : String
  description : String
  content : String
  featuredImage : Option String
  category : String
  tags : Option (List String)
  status : Option String
  authorId : Option String
deriving Repr, DecidableEq

/-- A partial update payload (`Partial InsertProject` in the source):
every field of `InsertProject` may be absent.  An outer `none` means the
key is absent from the object, so the spread in `updateProject` leaves
the existing value alone; there is no field for `id`, `createdAt` or
`updatedAt` because the insert schema omits them. -/
structure ProjectPatch where
  title : Option String
  slug : Option String
  description : Option String
  content : Option String
  featuredImage : Option (Option String)
  category : Option String
  tags : Option (Option (List String))
  status : Option String
  authorId : Option (Option String)
deriving Repr, DecidableEq

/-- The patch with every key absent: `updateProject(id, {})`. -/
def ProjectPatch.empty : ProjectPatch :=
  { title := none, slug := none, description := none, content := none,
    featuredImage := none, category := none, tags := none, status := none,
    authorId := none }

/-- A stored media record (`media` table / `Media` type in
src/shared/schema.ts). -/
structure Media where
  id : Nat
  filename : String
  originalName : String
  mimeType : String
  size : String
  url : String
  altText : Option String
  uploadedBy : Option String
  createdAt : Nat
deriving Repr, DecidableEq

/-- The media creation payload (`InsertMedia` in src/shared/schema.ts:
the media insert schema, which omits `id` and `createdAt`). -/
structure InsertMedia where
  filename : String
  originalName : String
  mimeType : String
  size : String
  url : String
  altText : Option String
  uploadedBy : Option String
deriving Repr, DecidableEq

/-- A stored contact submission (`contact_submissions` table /
`ContactSubmission` type in src/shared/schema.ts). -/
structure ContactSubmission where
  id : Nat
  name : String
  email : String
  subject : String
  message : String
  status : String
  createdAt : Nat
deriving Repr, DecidableEq

/-- The contact creation payload.  The zod-validated `InsertContact`
type omits `status`, but a raw runtime object may still carry that key;
the object literal in `createContact` spreads the payload BEFORE its own
`status: "new"` entry, so any such value is discarded.  The optional
`status` field here models that possibly-present raw key. -/
structure InsertContact where
  name : String
  email : String
  subject : String
  message : String
  status : Option String
deriving Repr, DecidableEq

/-- The two error sites of `MemStorage` in src/server/storage.ts:
`upsertUser` throws when the payload id is falsy, and `updateProject`
throws when the id is not in the store. -/
inductive StorageError where
  | userIdRequired
  | projectNotFound (id : Nat)
deriving Repr, DecidableEq

/-- A constraint failure raised by the backing database of the
persistent implementation; the spec surfaces it as `ConflictError`. -/
inductive DbError where
  | uniqueViolation (constraintName : String)
deriving Repr, DecidableEq

/-- The state of `MemStorage` (src/server/storage.ts lines 37 to 44):
four JS maps and three sequential id counters. -/
structure MemStorage where
  users : List (String × User)
  projects : List (Nat × Project)
  media : List (Nat × Media)
  contacts : List (Nat × ContactSubmission)
  nextProjectId : Nat
  nextMediaId : Nat
  nextContactId : Nat
deriving Repr, DecidableEq

/-- The freshly constructed store: empty maps, all counters at 1. -/
def MemStorage.init : MemStorage :=
  { users := [], projects := [], media := [], contacts := [],
    nextProjectId := 1, nextMediaId := 1, nextContactId := 1 }

/-- `MemStorage.upsertUser` (src/server/storage.ts lines 51 to 67):
throws when the payload id is falsy; otherwise rebuilds the whole record
from the payload with `field || null` on every optional field, keeping
only `createdAt` from an existing record, and stamps `updatedAt`. -/
def MemStorage.upsertUser (st : MemStorage) (userData : UpsertUser) (now : Nat) :
    Except StorageError (User × MemStorage) :=
  if strFalsy userData.id then
    .error .userIdRequired
  else
    let uid := userData.id.getD ""
    let existingUser := lookupEntry uid st.users
    let user : User :=
      { id := uid,
        email := strOrNull userData.email,
        firstName := strOrNull userData.firstName,
        lastName := strOrNull userData.lastName,
        profileImageUrl := strOrNull userData.profileImageUrl,
        createdAt := match existingUser with
          | some ex => ex.createdAt
          | none => now,
        updatedAt := now }
    .ok (user, { st with users := setEntry uid user st.users })

/-- The comparison `(a, b) => b.createdAt - a.createdAt` passed to the
JS sort in `getProjects`: descending creation time. -/
def createdDesc (a b : Project) : Prop :=
  b.createdAt ≤ a.createdAt

instance : DecidableRel createdDesc :=
  fun a b => Nat.decLe b.createdAt a.createdAt

instance : IsTotal Project createdDesc :=
  ⟨fun a b => Nat.le_total b.createdAt a.createdAt⟩

instance : IsTrans Project createdDesc :=
  ⟨fun _ _ _ h h' => Nat.le_trans h' h⟩

/-- `MemStorage.getProjects` (src/server/storage.ts lines 70 to 74):
takes the map values, filters by status when the argument is truthy
(an absent argument and the falsy empty string skip the filter), and
sorts by creation time descending with the stable JS sort. -/
def MemStorage.getProjects (st : MemStorage) (status : Option String) : List Project :=
  let allProjects := st.projects.map Prod.snd
  let filtered := match status with
    | some s => if s = "" then allProjects else allProjects.filter (fun p => p.status == s)
    | none => allProjects
  List.insertionSort createdDesc filtered

/-- `MemStorage.getProject` (src/server/storage.ts lines 76 to 78). -/
def MemStorage.getProject (st : MemStorage) (id : Nat) : Option Project :=
  lookupEntry id st.projects

/-- `MemStorage.createProject` (src/server/storage.ts lines 84 to 102):
takes the next sequential id, builds the record with `|| null` on the
optional fields and `|| "draft"` on status, stamps both timestamps with
the same clock reading, and stores it. -/
def MemStorage.createProject (st : MemStorage) (projectData : InsertProject) (now : Nat) :
    Project × MemStorage :=
  let id := st.nextProjectId
  let project : Project :=
    { id := id,
      title := projectData.title,
      slug := projectData.slug,
      description := projectData.description,
      content := projectData.content,
      featuredImage := strOrNull projectData.featuredImage,
      category := projectData.category,
      tags := listOrNull projectData.tags,
      status := strOrD projectData.status "draft",
      authorId := strOrNull projectData.authorId,
      createdAt := now,
      updatedAt := now }
  (project,
    { st with projects := setEntry id project st.projects, nextProjectId := id + 1 })

/-- The object literal `{ ...existing, ...projectData, updatedAt: now }`
shared by `MemStorage.updateProject` and the SET clause of
`DatabaseStorage.updateProject`: keys present in the patch overwrite the
existing value, `updatedAt` is rewritten last, and `id` and `createdAt`
cannot be touched because the patch type has no such keys. -/
def applyPatch (existing : Project) (projectData : ProjectPatch) (now : Nat) : Project :=
  { id := existing.id,
    title := projectData.title.getD existing.title,
    slug := projectData.slug.getD existing.slug,
    description := projectData.description.getD existing.description,
    content := projectData.content.getD existing.content,
    featuredImage := projectData.featuredImage.getD existing.featuredImage,
    category := projectData.category.getD existing.category,
    tags := projectData.tags.getD existing.tags,
    status := projectData.status.getD existing.status,
    authorId := projectData.authorId.getD existing.authorId,
    createdAt := existing.createdAt,
    updatedAt := now }

/-- `MemStorage.updateProject` (src/server/storage.ts lines 104 to 116):
throws when the id is absent, otherwise merges the patch over the
existing record, refreshes `updatedAt`, stores and returns the result. -/
def MemStorage.updateProject (st : MemStorage) (id : Nat) (projectData : ProjectPatch)
    (now : Nat) : Except StorageError (Project × MemStorage) :=
  match lookupEntry id st.projects with
  | none => .error (.projectNotFound id)
  | some existing =>
    let updated := applyPatch existing projectData now
    .ok (updated, { st with projects := setEntry id updated st.projects })

/-- `MemStorage.deleteProject` (src/server/storage.ts lines 118 to 120):
a bare `Map.delete`; total, so it can never raise. -/
def MemStorage.deleteProject (st : MemStorage) (id : Nat) : MemStorage :=
  { st with projects := delEntry id st.projects }

/-- `MemStorage.createMedia` (src/server/storage.ts lines 132 to 147). -/
def MemStorage.createMedia (st : MemStorage) (mediaData : InsertMedia) (now : Nat) :
    Media × MemStorage :=
  let id := st.nextMediaId
  let m : Media :=
    { id := id,
      filename := mediaData.filename,
      originalName := mediaData.originalName,
      mimeType := mediaData.mimeType,
      size := mediaData.size,
      url := mediaData.url,
      altText := strOrNull mediaData.altText,
      uploadedBy := strOrNull mediaData.uploadedBy,
      createdAt := now }
  (m, { st with media := setEntry id m st.media, nextMediaId := id + 1 })

/-- `MemStorage.deleteMedia` (src/server/storage.ts lines 149 to 151):
a bare `Map.delete`; total, so it can never raise. -/
def MemStorage.deleteMedia (st : MemStorage) (id : Nat) : MemStorage :=
  { st with media := delEntry id st.media }

/-- `MemStorage.createContact` (src/server/storage.ts lines 159 to 169):
next sequential id, payload fields spread first, then `status: "new"`
(overwriting any raw payload status) and the creation stamp. -/
def MemStorage.createContact (st : MemStorage) (contactData : InsertContact) (now : Nat) :
    ContactSubmission × MemStorage :=
  let id := st.nextContactId
  let contact : ContactSubmission :=
    { id := id,
      name := contactData.name,
      email := contactData.email,
      subject := contactData.subject,
      message := contactData.message,
      status := "new",
      createdAt := now }
  (contact, { st with contacts := setEntry id contact st.contacts, nextContactId := id + 1 })

/-- `MemStorage.updateContactStatus` (src/server/storage.ts lines 171 to
176): when the id is present, re-store the record with only `status`
replaced; when absent, do nothing and raise nothing. -/
def MemStorage.updateContactStatus (st : MemStorage) (id : Nat) (status : String) :
    MemStorage :=
  match lookupEntry id st.contacts with
  | none => st
  | some existing =>
    { st with contacts := setEntry id { existing with status := status } st.contacts }

/-- `DatabaseStorage.upsertUser` (src/unnamed/part_000 lines 230 to 243)
executed against the `users` table of src/shared/schema.ts: an INSERT
with ON CONFLICT (id) DO UPDATE whose SET clause spreads the payload, so
only columns whose key is present in the payload are overwritten, plus a
fresh `updatedAt`.  `genId` stands for the `gen_random_uuid()` column
default used when the payload carries no id; `createdAt` is not in the
SET clause, so an existing row keeps it. -/
def dbUpsertUser (table : List (String × User)) (userData : UpsertUser) (genId : String)
    (now : Nat) : User × List (String × User) :=
  let key := userData.id.getD genId
  match lookupEntry key table with
  | some ex =>
    let user : User :=
      { id := key,
        email := match userData.email with | some v => some v | none => ex.email,
        firstName := match userData.firstName with | some v => some v | none => ex.firstName,
        lastName := match userData.lastName with | some v => some v | none => ex.lastName,
        profileImageUrl := match userData.profileImageUrl with
          | some v => some v
          | none => ex.profileImageUrl,
        createdAt := ex.createdAt,
        updatedAt := now }
    (user, setEntry key user table)
  | none =>
    let user : User :=
      { id := key,
        email := userData.email,
        firstName := userData.firstName,
        lastName := userData.lastName,
        profileImageUrl := userData.profileImageUrl,
        createdAt := now,
        updatedAt := now }
    (user, setEntry key user table)

/-- `DatabaseStorage.createProject` (src/unnamed/part_000 lines 266 to
269) executed against the `projects` table of src/shared/schema.ts: the
column `slug` carries a UNIQUE constraint (schema.ts line 42), so an
INSERT whose slug is already stored fails with a unique-violation error
(the ConflictError of the spec) instead of adding a row; otherwise the
row is appended with the declared column defaults (`status` defaults to
"draft", timestamps to the current clock). -/
def dbCreateProject (table : List Project) (projectData : InsertProject) (nextId : Nat)
    (now : Nat) : Except DbError (Project × List Project) :=
  if table.any (fun p => p.slug == projectData.slug) then
    .error (.uniqueViolation "projects_slug_unique")
  else
    let project : Project :=
      { id := nextId,
        title := projectData.title,
        slug := projectData.slug,
        description := projectData.description,
        content := projectData.content,
        featuredImage := projectData.featuredImage,
        category := projectData.category,
        tags := projectData.tags,
        status := projectData.status.getD "draft",
        authorId := projectData.authorId,
        createdAt := now,
        updatedAt := now }
    .ok (project, table ++ [project])

/-- `DatabaseStorage.updateProject` (src/unnamed/part_000 lines 271 to
278): a single UPDATE ... WHERE id = ? ... RETURNING.  Every matching
row (at most one, id being the primary key) is rewritten through the SET
clause; the function destructures the RETURNING list, so an unmatched id
yields `none` (the JS `undefined`) and no error is raised. -/
def dbUpdateProject (table : List Project) (id : Nat) (projectData : ProjectPatch)
    (now : Nat) : Option Project × List Project :=
  let updatedTable := table.map (fun p => if p.id == id then applyPatch p projectData now else p)
  let returned := updatedTable.filter (fun p => p.id == id)
  (returned.head?, updatedTable)

/-! Association-list lemmas shared by the claim proofs. -/

theorem lookupEntry_setEntry_self {κ α : Type} [DecidableEq κ] (k : κ) (v : α)
    (l : List (κ × α)) : lookupEntry k (setEntry k v l) = some v := by
  induction l with
  | nil => simp [setEntry, lookupEntry]
  | cons hd tl ih =>
    by_cases h : hd.1 = k
    · simp [setEntry, h, lookupEntry]
    · simp [setEntry, h, lookupEntry, ih]

theorem lookupEntry_setEntry_ne {κ α : Type} [DecidableEq κ] {j k : κ} (v : α)
    (l : List (κ × α)) (hjk : j ≠ k) :
    lookupEntry j (setEntry k v l) = lookupEntry j l := by
  have hkj : ¬k = j := fun h => hjk h.symm
  induction l with
  | nil =>
    simp only [setEntry, lookupEntry]
    rw [if_neg hkj]
  | cons hd tl ih =>
    by_cases h : hd.1 = k
    · simp only [setEntry, if_pos h, lookupEntry, h]
      rw [if_neg hkj, if_neg hkj]
    · simp only [setEntry, if_neg h, lookupEntry]
      by_cases h' : hd.1 = j
      · simp [h']
      · simp [h', ih]

theorem setEntry_of_lookup_none {κ α : Type} [DecidableEq κ] {k : κ} (v : α)
    {l : List (κ × α)} (h : lookupEntry k l = none) :
    setEntry k v l = l ++ [(k, v)] := by
  induction l with
  | nil => simp [setEntry]
  | cons hd tl ih =>
    by_cases hk : hd.1 = k
    · simp [lookupEntry, hk] at h
    · simp only [lookupEntry, if_neg hk] at h
      simp [setEntry, hk, ih h]

theorem setEntry_map_fst_of_lookup_some {κ α : Type} [DecidableEq κ] {k : κ} (v : α)
    {l : List (κ × α)} {w : α} (h : lookupEntry k l = some w) :
    (setEntry k v l).map Prod.fst = l.map Prod.fst := by
  induction l with
  | nil => simp [lookupEntry] at h
  | cons hd tl ih =>
    by_cases hk : hd.1 = k
    · simp [setEntry, hk]
    · simp only [lookupEntry, if_neg hk] at h
      simp [setEntry, hk, ih h]

theorem mem_setEntry {κ α : Type} [DecidableEq κ] {k : κ} {v : α}
    {l : List (κ × α)} {pr : κ × α} (h : pr ∈ setEntry k v l) :
    pr = (k, v) ∨ pr ∈ l := by
  induction l with
  | nil => simpa [setEntry] using h
  | cons hd tl ih =>
    by_cases hk : hd.1 = k
    · simp only [setEntry, if_pos hk, List.mem_cons] at h
      rcases h with h | h
      · exact Or.inl h
      · exact Or.inr (List.mem_cons_of_mem hd h)
    · simp only [setEntry, if_neg hk, List.mem_cons] at h
      rcases h with h | h
      · exact Or.inr (h ▸ List.mem_cons_self hd tl)
      · rcases ih h with h' | h'
        · exact Or.inl h'
        · exact Or.inr (List.mem_cons_of_mem hd h')

theorem lookup_some_mem {κ α : Type} [DecidableEq κ] {k : κ} {v : α}
    {l : List (κ × α)} (h : lookupEntry k l = some v) : (k, v) ∈ l := by
  induction l with
  | nil => simp [lookupEntry] at h
  | cons hd tl ih =>
    by_cases hk : hd.1 = k
    · simp only [lookupEntry, if_pos hk, Option.some.injEq] at h
      have hd_eq : (k, v) = hd := by
        cases hd
        simp_all
      exact List.mem_cons.mpr (Or.inl hd_eq)
    · simp only [lookupEntry, if_neg hk] at h
      exact List.mem_cons_of_mem hd (ih h)

theorem lookupEntry_eq_none_of_forall {κ α : Type} [DecidableEq κ] {k : κ}
    {l : List (κ × α)} (h : ∀ pr ∈ l, pr.1 ≠ k) : lookupEntry k l = none := by
  induction l with
  | nil => simp [lookupEntry]
  | cons hd tl ih =>
    have hhd : hd.1 ≠ k := h hd (List.mem_cons_self hd tl)
    simp only [lookupEntry, if_neg hhd]
    exact ih fun pr hpr => h pr (List.mem_cons_of_mem hd hpr)

theorem delEntry_sublist {κ α : Type} [DecidableEq κ] (k : κ) (l : List (κ × α)) :
    List.Sublist (delEntry k l) l := by
  induction l with
  | nil => simp [delEntry]
  | cons hd tl ih =>
    by_cases hk : hd.1 = k
    · simp only [delEntry, if_pos hk]
      exact List.sublist_cons_self hd tl
    · simpa [delEntry, hk] using ih.cons₂ hd

theorem delEntry_of_lookup_none {κ α : Type} [DecidableEq κ] {k : κ}
    {l : List (κ × α)} (h : lookupEntry k l = none) : delEntry k l = l := by
  induction l with
  | nil => simp [delEntry]
  | cons hd tl ih =>
    by_cases hk : hd.1 = k
    · simp [lookupEntry, hk] at h
    · simp only [lookupEntry, if_neg hk] at h
      simp [delEntry, hk, ih h]

theorem lookupEntry_delEntry_self {κ α : Type} [DecidableEq κ] {k : κ}
    {l : List (κ × α)} (h : (l.map Prod.fst).Nodup) :
    lookupEntry k (delEntry k l) = none := by
  induction l with
  | nil => simp [delEntry, lookupEntry]
  | cons hd tl ih =>
    simp only [List.map_cons, List.nodup_cons] at h
    by_cases hk : hd.1 = k
    · simp only [delEntry, if_pos hk]
      refine lookupEntry_eq_none_of_forall fun pr hpr hk' => h.1 ?_
      rw [hk, ← hk']
      exact List.mem_map_of_mem Prod.fst hpr
    · simp only [delEntry, if_neg hk, lookupEntry, if_neg hk]
      exact ih h.2

theorem delEntry_idem {κ α : Type} [DecidableEq κ] (k : κ)
    {l : List (κ × α)} (h : (l.map Prod.fst).Nodup) :
    delEntry k (delEntry k l) = delEntry k l :=
  delEntry_of_lookup_none (lookupEntry_delEntry_self h)

/-! Concrete records used by the witnesses. -/

/-- A concrete stored project used by witnesses. -/
def sampleProject : Project :=
  { id := 1, title := "My First Project", slug := "my-first-project",
    description := "d", content := "c", featuredImage := none, category := "Web",
    tags := none, status := "published", authorId := none, createdAt := 0,
    updatedAt := 0 }

/-- A concrete stored media record used by witnesses. -/
def sampleMedia : Media :=
  { id := 1, filename := "f.png", originalName := "o.png",
    mimeType := "image/png", size := "10", url := "/uploads/f.png",
    altText := none, uploadedBy := none, createdAt := 0 }

/-- A concrete stored contact submission used by witnesses. -/
def sampleContact : ContactSubmission :=
  { id := 1, name := "N", email := "n@example.com", subject := "S",
    message := "M", status := "new", createdAt := 0 }

/-- A concrete store holding one record of each entity type. -/
def sampleStore : MemStorage :=
  { users := [], projects := [(1, sampleProject)], media := [(1, sampleMedia)],
    contacts := [(1, sampleContact)], nextProjectId := 2, nextMediaId := 2,
    nextContactId := 2 }

/-! The claims. -/

/-- C4: for every payload, the contact record returned by `createContact`
and the one stored under the fresh key have status `"new"` (the object
literal writes `status: "new"` after spreading the payload, so even a
payload carrying a different raw status value is overridden), carry the
next sequential contact id, and are stamped with the creation clock;
the counter advances by one. -/
theorem createContact_forces_status_new (st : MemStorage) (c : InsertContact) (now : Nat) :
    (st.createContact c now).1.status = "new" ∧
    (st.createContact c now).1.id = st.nextContactId ∧
    (st.createContact c now).1.createdAt = now ∧
    lookupEntry st.nextContactId (st.createContact c now).2.contacts =
      some (st.createContact c now).1 ∧
    (st.createContact c now).2.nextContactId = st.nextContactId + 1 :=
  ⟨rfl, rfl, rfl, by simp [MemStorage.createContact, lookupEntry_setEntry_self], rfl⟩

/-- C5: `deleteProject` and `deleteMedia` are total (they can never
raise), and on any store whose project and media maps have distinct keys
(true of every reachable store) a second delete of the same id leaves
the state exactly as it was after the first delete. -/
theorem delete_idempotent (st : MemStorage) (id : Nat)
    (hp : (st.projects.map Prod.fst).Nodup) (hm : (st.media.map Prod.fst).Nodup) :
    (st.deleteProject id).deleteProject id = st.deleteProject id ∧
    (st.deleteMedia id).deleteMedia id = st.deleteMedia id := by
  constructor
  · simp [MemStorage.deleteProject, delEntry_idem id hp]
  · simp [MemStorage.deleteMedia, delEntry_idem id hm]

/-- Witness for C5 at a concrete store holding one project and one
media record. -/
theorem delete_idempotent_witness :
    (sampleStore.deleteProject 1).deleteProject 1 = sampleStore.deleteProject 1 ∧
    (sampleStore.deleteMedia 1).deleteMedia 1 = sampleStore.deleteMedia 1 :=
  delete_idempotent sampleStore 1 (by decide) (by decide)

/-- C6: `getProjects "published"` returns exactly the stored projects
whose status is `"published"` (a permutation of the filtered map values,
so no more and no fewer), sorted by creation time descending, and with
no filter argument it returns all stored projects in the same
descending creation-time order. -/
theorem getProjects_published_exact (st : MemStorage) :
    (st.getProjects (some "published")).Perm
      ((st.projects.map Prod.snd).filter (fun p => p.status == "published")) ∧
    List.Sorted createdDesc (st.getProjects (some "published")) ∧
    (st.getProjects none).Perm (st.projects.map Prod.snd) ∧
    List.Sorted createdDesc (st.getProjects none) := by
  have hne : ¬("published" : String) = "" := by decide
  refine ⟨?_, ?_, ?_, ?_⟩
  · simp only [MemStorage.getProjects, if_neg hne]
    exact List.perm_insertionSort createdDesc _
  · simp only [MemStorage.getProjects, if_neg hne]
    exact List.sorted_insertionSort createdDesc _
  · simp only [MemStorage.getProjects]
    exact List.perm_insertionSort createdDesc _
  · simp only [MemStorage.getProjects]
    exact List.sorted_insertionSort createdDesc _

/-- C7: `createProject` hands out the next sequential id and advances
the counter; an absent status defaults to `"draft"`; absent tags, author
and featured image stay absent (`null`); and the two timestamps are
stamped from the same clock reading, hence identical. -/
theorem createProject_defaults (st : MemStorage) (d : InsertProject) (now : Nat) :
    (st.createProject d now).1.id = st.nextProjectId ∧
    (st.createProject d now).2.nextProjectId = st.nextProjectId + 1 ∧
    (d.status = none → (st.createProject d now).1.status = "draft") ∧
    (d.tags = none → (st.createProject d now).1.tags = none) ∧
    (d.authorId = none → (st.createProject d now).1.authorId = none) ∧
    (d.featuredImage = none → (st.createProject d now).1.featuredImage = none) ∧
    (st.createProject d now).1.createdAt = now ∧
    (st.createProject d now).1.updatedAt = now := by
  refine ⟨rfl, rfl, ?_, ?_, ?_, ?_, rfl, rfl⟩ <;> intro h <;>
    simp [MemStorage.createProject, strOrD, strOrNull, listOrNull, h]

/-- The creation payload of the example scenario of the spec: required
fields only, every optional field absent. -/
def minimalInsert : InsertProject :=
  { title := "My First Project", slug := "my-first-project", description := "d",
    content := "c", featuredImage := none, category := "Web", tags := none,
    status := none, authorId := none }

/-- Witness for C7 on a fresh store and a payload with every optional
field absent. -/
theorem createProject_defaults_witness :
    (MemStorage.init.createProject minimalInsert 3).1.status = "draft" ∧
    (MemStorage.init.createProject minimalInsert 3).1.tags = none ∧
    (MemStorage.init.createProject minimalInsert 3).1.authorId = none ∧
    (MemStorage.init.createProject minimalInsert 3).1.featuredImage = none ∧
    (MemStorage.init.createProject minimalInsert 3).1.id = 1 ∧
    (MemStorage.init.createProject minimalInsert 3).1.createdAt = 3 ∧
    (MemStorage.init.createProject minimalInsert 3).1.updatedAt = 3 := by
  have h := createProject_defaults MemStorage.init minimalInsert 3
  exact ⟨h.2.2.1 rfl, h.2.2.2.1 rfl, h.2.2.2.2.1 rfl, h.2.2.2.2.2.1 rfl, h.1,
    h.2.2.2.2.2.2.1, h.2.2.2.2.2.2.2⟩

/-- C9: `updateContactStatus` on an unknown id is a no-op that raises
nothing and changes nothing; on a known id the stored record is replaced
by the same record with only the status field rewritten, every other
contact entry is untouched, and the rest of the store (users, projects,
media) stays exactly as it was. -/
theorem updateContactStatus_frame (st : MemStorage) (id : Nat) (s : String) :
    (lookupEntry id st.contacts = none → st.updateContactStatus id s = st) ∧
    (∀ c, lookupEntry id st.contacts = some c →
      lookupEntry id (st.updateContactStatus id s).contacts =
        some { c with status := s } ∧
      ({ c with status := s } : ContactSubmission).name = c.name ∧
      ({ c with status := s } : ContactSubmission).email = c.email ∧
      ({ c with status := s } : ContactSubmission).subject = c.subject ∧
      ({ c with status := s } : ContactSubmission).message = c.message ∧
      ({ c with status := s } : ContactSubmission).createdAt = c.createdAt ∧
      (∀ j, j ≠ id →
        lookupEntry j (st.updateContactStatus id s).contacts =
          lookupEntry j st.contacts) ∧
      (st.updateContactStatus id s).users = st.users ∧
      (st.updateContactStatus id s).projects = st.projects ∧
      (st.updateContactStatus id s).media = st.media) := by
  constructor
  · intro h
    simp [MemStorage.updateContactStatus, h]
  · intro c h
    refine ⟨?_, rfl, rfl, rfl, rfl, rfl, ?_, ?_, ?_, ?_⟩
    · simp [MemStorage.updateContactStatus, h, lookupEntry_setEntry_self]
    · intro j hj
      simp [MemStorage.updateContactStatus, h, lookupEntry_setEntry_ne _ _ hj]
    · simp [MemStorage.updateContactStatus, h]
    · simp [MemStorage.updateContactStatus, h]
    · simp [MemStorage.updateContactStatus, h]

/-- Witness for C9: an unknown id (7) leaves the concrete store intact,
while the known id (1) gets exactly its status rewritten. -/
theorem updateContactStatus_frame_witness :
    sampleStore.updateContactStatus 7 "read" = sampleStore ∧
    lookupEntry 1 (sampleStore.updateContactStatus 1 "read").contacts =
      some { sampleContact with status := "read" } := by
  constructor
  · exact (updateContactStatus_frame sampleStore 7 "read").1 (by decide)
  · exact ((updateContactStatus_frame sampleStore 1 "read").2 sampleContact (by decide)).1

/-- C10: a partial update of a present project succeeds, and the record
it returns and stores has the same id and the same creation timestamp as
the record that was there before: the patch type (derived from the
insert schema) has no id or createdAt key, and the merge keeps both. -/
theorem updateProject_preserves_identity (st : MemStorage) (id : Nat) (d : ProjectPatch)
    (now : Nat) (ex : Project) (h : lookupEntry id st.projects = some ex) :
    ∃ p st', st.updateProject id d now = .ok (p, st') ∧
      p.id = ex.id ∧ p.createdAt = ex.createdAt ∧
      lookupEntry id st'.projects = some p := by
  refine ⟨applyPatch ex d now,
    { st with projects := setEntry id (applyPatch ex d now) st.projects }, ?_, rfl, rfl, ?_⟩
  · simp [MemStorage.updateProject, h]
  · simp [lookupEntry_setEntry_self]

/-- Witness for C10 at the concrete store and an empty patch. -/
theorem updateProject_preserves_identity_witness :
    ∃ p st', sampleStore.updateProject 1 ProjectPatch.empty 9 = .ok (p, st') ∧
      p.id = sampleProject.id ∧ p.createdAt = sampleProject.createdAt ∧
      lookupEntry 1 st'.projects = some p :=
  updateProject_preserves_identity sampleStore 1 ProjectPatch.empty 9 sampleProject
    (by decide)

/-- First upsert payload of the C1 scenario: a full profile. -/
def firstUpsert : UpsertUser :=
  { id := some "u1", email := some "ann@example.com", firstName := some "Ann",
    lastName := some "Lee", profileImageUrl := none }

/-- Second upsert payload of the C1 scenario: the same id, a new email,
every other optional field absent. -/
def secondUpsert : UpsertUser :=
  { id := some "u1", email := some "ann@new.example.com", firstName := none,
    lastName := none, profileImageUrl := none }

/-- The two C1 upserts run against the in-memory store, the second with
a strictly later clock. -/
def memUpsertTwice : Except StorageError (User × MemStorage) :=
  (MemStorage.init.upsertUser firstUpsert 0).bind fun r => r.2.upsertUser secondUpsert 5

/-- The two C1 upserts run against the database-backed store. -/
def dbUpsertTwice : User × List (String × User) :=
  dbUpsertUser (dbUpsertUser [] firstUpsert "gen" 0).2 secondUpsert "gen" 5

/-- C1: at the concrete two-call scenario, `MemStorage.upsertUser`
overwrites the names that the second payload leaves absent with `null`
(its record is rebuilt with `field || null`), while preserving
`createdAt` and refreshing `updatedAt`; `DatabaseStorage.upsertUser` at
the same inputs keeps the stored names, as the claim requires.  The
first conjunct exhibits the violation of the claim by the in-memory
implementation. -/
theorem upsertUser_second_call_nulls_names :
    memUpsertTwice.toOption.map
        (fun r => (r.1.firstName, r.1.lastName, r.1.createdAt, r.1.updatedAt)) =
      some (none, none, 0, 5) ∧
    dbUpsertTwice.1.firstName = some "Ann" ∧
    dbUpsertTwice.1.lastName = some "Lee" ∧
    dbUpsertTwice.1.email = some "ann@new.example.com" ∧
    dbUpsertTwice.1.createdAt = 0 ∧
    dbUpsertTwice.1.updatedAt = 5 := by
  decide

/-- Second creation payload of the C2 scenario: a different title but
the same slug as `minimalInsert`. -/
def collidingInsert : InsertProject :=
  { title := "Another Project", slug := "my-first-project", description := "d2",
    content := "c2", featuredImage := none, category := "Web", tags := none,
    status := none, authorId := none }

/-- The store after the two colliding creates of the C2 scenario. -/
def memCreateTwice : MemStorage :=
  ((MemStorage.init.createProject minimalInsert 0).2.createProject collidingInsert 1).2

/-- Counterexample for C2: `MemStorage.createProject` checks no slug
uniqueness, so the second create with the already-stored slug also
succeeds (it returns a stored record with that slug and a fresh id) and
the store ends up with two projects sharing one slug. -/
theorem createProject_duplicate_slug_both_succeed :
    ((MemStorage.init.createProject minimalInsert 0).2.createProject
        collidingInsert 1).1.slug = "my-first-project" ∧
    memCreateTwice.projects.map (fun pr => pr.2.slug) =
      ["my-first-project", "my-first-project"] ∧
    memCreateTwice.projects.map (fun pr => pr.2.id) = [1, 2] := by
  decide

/-- C2 (amended): in the database-backed implementation, an insert whose
slug is already stored violates the UNIQUE constraint on `projects.slug`
and fails with the unique-violation (conflict) error instead of storing
a second row. -/
theorem dbCreateProject_duplicate_slug_conflict (table : List Project)
    (d : InsertProject) (nextId now : Nat) (p : Project) (hp : p ∈ table)
    (hslug : p.slug = d.slug) :
    dbCreateProject table d nextId now =
      .error (.uniqueViolation "projects_slug_unique") := by
  unfold dbCreateProject
  rw [if_pos]
  exact List.any_eq_true.mpr ⟨p, hp, by simp [hslug]⟩

/-- Witness for the amended C2 at a concrete one-row table. -/
theorem dbCreateProject_duplicate_slug_conflict_witness :
    dbCreateProject [sampleProject] collidingInsert 2 1 =
      .error (.uniqueViolation "projects_slug_unique") :=
  dbCreateProject_duplicate_slug_conflict [sampleProject] collidingInsert 2 1
    sampleProject (by decide) (by decide)

/-- C3: at an id that is not stored, `MemStorage.updateProject` raises
its not-found error, but `DatabaseStorage.updateProject` updates no row
and resolves to `none` (the JS `undefined`) without raising; on a stored
id both merge only the supplied fields and refresh `updatedAt`.  The
first two conjuncts exhibit the divergence at the concrete unknown id;
the last shows the merge at a present id. -/
theorem updateProject_unknown_id_divergence :
    dbUpdateProject [] 1 ProjectPatch.empty 5 = (none, []) ∧
    MemStorage.init.updateProject 1 ProjectPatch.empty 5 =
      .error (.projectNotFound 1) ∧
    (sampleStore.updateProject 1 { ProjectPatch.empty with status := some "draft" }
        9).toOption.map
        (fun r => (r.1.status, r.1.title, r.1.createdAt, r.1.updatedAt)) =
      some ("draft", "My First Project", 0, 9) :=
  ⟨rfl, rfl, rfl⟩

/-! Finite call sequences against the in-memory store, for the identity
invariant: ids are handed out by ever-increasing counters and are never
reclaimed, whatever mix of creates, updates and deletes runs. -/

/-- The mutating operations of the storage interface, one constructor
per method, with the clock reading attached where the source stamps a
time. -/
inductive Op where
  | doUpsertUser (u : UpsertUser) (now : Nat)
  | doCreateProject (d : InsertProject) (now : Nat)
  | doUpdateProject (id : Nat) (d : ProjectPatch) (now : Nat)
  | doDeleteProject (id : Nat)
  | doCreateMedia (d : InsertMedia) (now : Nat)
  | doDeleteMedia (id : Nat)
  | doCreateContact (d : InsertContact) (now : Nat)
  | doUpdateContactStatus (id : Nat) (s : String)
deriving Repr

/-- One interface call.  A call that throws leaves the store untouched:
both throw sites in the source throw before any write. -/
def applyOp (st : MemStorage) : Op → MemStorage
  | .doUpsertUser u now =>
    match st.upsertUser u now with
    | .ok r => r.2
    | .error _ => st
  | .doCreateProject d now => (st.createProject d now).2
  | .doUpdateProject id d now =>
    match st.updateProject id d now with
    | .ok r => r.2
    | .error _ => st
  | .doDeleteProject id => st.deleteProject id
  | .doCreateMedia d now => (st.createMedia d now).2
  | .doDeleteMedia id => st.deleteMedia id
  | .doCreateContact d now => (st.createContact d now).2
  | .doUpdateContactStatus id s => st.updateContactStatus id s

/-- Run of a finite call sequence. -/
def run : MemStorage → List Op → MemStorage
  | st, [] => st
  | st, op :: ops => run (applyOp st op) ops

/-- The project id handed out by one call: creates read the counter,
every other call assigns nothing. -/
def projectIdHere (st : MemStorage) : Op → List Nat
  | .doCreateProject _ _ => [st.nextProjectId]
  | _ => []

/-- The media id handed out by one call. -/
def mediaIdHere (st : MemStorage) : Op → List Nat
  | .doCreateMedia _ _ => [st.nextMediaId]
  | _ => []

/-- The contact id handed out by one call. -/
def contactIdHere (st : MemStorage) : Op → List Nat
  | .doCreateContact _ _ => [st.nextContactId]
  | _ => []

/-- All project ids handed out along a run, in call order. -/
def projectIdsAssigned : MemStorage → List Op → List Nat
  | _, [] => []
  | st, op :: ops => projectIdHere st op ++ projectIdsAssigned (applyOp st op) ops

/-- All media ids handed out along a run, in call order. -/
def mediaIdsAssigned : MemStorage → List Op → List Nat
  | _, [] => []
  | st, op :: ops => mediaIdHere st op ++ mediaIdsAssigned (applyOp st op) ops

/-- All contact ids handed out along a run, in call order. -/
def contactIdsAssigned : MemStorage → List Op → List Nat
  | _, [] => []
  | st, op :: ops => contactIdHere st op ++ contactIdsAssigned (applyOp st op) ops

/-- A successful upsert only rewrites the user map. -/
theorem upsertUser_ok_frame {st : MemStorage} {u : UpsertUser} {now : Nat}
    {r : User × MemStorage} (h : st.upsertUser u now = .ok r) :
    r.2.projects = st.projects ∧ r.2.media = st.media ∧ r.2.contacts = st.contacts ∧
    r.2.nextProjectId = st.nextProjectId ∧ r.2.nextMediaId = st.nextMediaId ∧
    r.2.nextContactId = st.nextContactId := by
  unfold MemStorage.upsertUser at h
  split at h
  · simp at h
  · simp only [Except.ok.injEq] at h
    subst h
    exact ⟨rfl, rfl, rfl, rfl, rfl, rfl⟩

/-- A successful update rewrites an existing project entry in place and
touches nothing else. -/
theorem updateProject_ok_frame {st : MemStorage} {id : Nat} {d : ProjectPatch}
    {now : Nat} {r : Project × MemStorage} (h : st.updateProject id d now = .ok r) :
    (∃ ex, lookupEntry id st.projects = some ex ∧
      r.2.projects = setEntry id (applyPatch ex d now) st.projects) ∧
    r.2.users = st.users ∧ r.2.media = st.media ∧ r.2.contacts = st.contacts ∧
    r.2.nextProjectId = st.nextProjectId ∧ r.2.nextMediaId = st.nextMediaId ∧
    r.2.nextContactId = st.nextContactId := by
  unfold MemStorage.updateProject at h
  split at h
  · simp at h
  next ex heq =>
    simp only [Except.ok.injEq] at h
    subst h
    exact ⟨⟨ex, heq, rfl⟩, rfl, rfl, rfl, rfl, rfl, rfl⟩

/-- The state written by `createProject`, spelled out. -/
theorem createProject_state (st : MemStorage) (d : InsertProject) (now : Nat) :
    (st.createProject d now).2 =
      { st with
        projects := setEntry st.nextProjectId (st.createProject d now).1 st.projects,
        nextProjectId := st.nextProjectId + 1 } := rfl

/-- The state written by `createMedia`, spelled out. -/
theorem createMedia_state (st : MemStorage) (d : InsertMedia) (now : Nat) :
    (st.createMedia d now).2 =
      { st with
        media := setEntry st.nextMediaId (st.createMedia d now).1 st.media,
        nextMediaId := st.nextMediaId + 1 } := rfl

/-- The state written by `createContact`, spelled out. -/
theorem createContact_state (st : MemStorage) (d : InsertContact) (now : Nat) :
    (st.createContact d now).2 =
      { st with
        contacts := setEntry st.nextContactId (st.createContact d now).1 st.contacts,
        nextContactId := st.nextContactId + 1 } := rfl

/-- `updateContactStatus` either does nothing or rewrites one existing
contact entry in place. -/
theorem updateContactStatus_cases (st : MemStorage) (id : Nat) (s : String) :
    st.updateContactStatus id s = st ∨
    ∃ c, lookupEntry id st.contacts = some c ∧
      st.updateContactStatus id s =
        { st with contacts := setEntry id { c with status := s } st.contacts } := by
  unfold MemStorage.updateContactStatus
  cases h : lookupEntry id st.contacts with
  | none => exact Or.inl rfl
  | some c => exact Or.inr ⟨c, rfl, rfl⟩

/-- No call ever decreases any of the three id counters. -/
theorem applyOp_counter_mono (st : MemStorage) (op : Op) :
    st.nextProjectId ≤ (applyOp st op).nextProjectId ∧
    st.nextMediaId ≤ (applyOp st op).nextMediaId ∧
    st.nextContactId ≤ (applyOp st op).nextContactId := by
  cases op with
  | doUpsertUser u now =>
    simp only [applyOp]
    cases h : st.upsertUser u now with
    | ok r =>
      obtain ⟨-, -, -, h4, h5, h6⟩ := upsertUser_ok_frame h
      simp [h4, h5, h6]
    | error e => simp
  | doCreateProject d now =>
    rw [applyOp, createProject_state]
    exact ⟨Nat.le_succ _, Nat.le_refl _, Nat.le_refl _⟩
  | doUpdateProject id d now =>
    simp only [applyOp]
    cases h : st.updateProject id d now with
    | ok r =>
      obtain ⟨-, -, -, -, h5, h6, h7⟩ := updateProject_ok_frame h
      simp [h5, h6, h7]
    | error e => simp
  | doDeleteProject id => exact ⟨Nat.le_refl _, Nat.le_refl _, Nat.le_refl _⟩
  | doCreateMedia d now =>
    rw [applyOp, createMedia_state]
    exact ⟨Nat.le_refl _, Nat.le_succ _, Nat.le_refl _⟩
  | doDeleteMedia id => exact ⟨Nat.le_refl _, Nat.le_refl _, Nat.le_refl _⟩
  | doCreateContact d now =>
    rw [applyOp, createContact_state]
    exact ⟨Nat.le_refl _, Nat.le_refl _, Nat.le_succ _⟩
  | doUpdateContactStatus id s =>
    rcases updateContactStatus_cases st id s with h | ⟨c, -, h⟩ <;>
      rw [applyOp, h] <;> exact ⟨Nat.le_refl _, Nat.le_refl _, Nat.le_refl _⟩

/-- Every project id assigned along a run is at least the counter value
at the start of the run. -/
theorem projectIdsAssigned_lower : ∀ (ops : List Op) (st : MemStorage),
    ∀ i ∈ projectIdsAssigned st ops, st.nextProjectId ≤ i := by
  intro ops
  induction ops with
  | nil =>
    intro st i hi
    simp [projectIdsAssigned] at hi
  | cons op ops ih =>
    intro st i hi
    simp only [projectIdsAssigned, List.mem_append] at hi
    rcases hi with hi | hi
    · cases op <;> simp [projectIdHere] at hi
      omega
    · exact Nat.le_trans (applyOp_counter_mono st op).1 (ih _ i hi)

/-- Every media id assigned along a run is at least the counter value
at the start of the run. -/
theorem mediaIdsAssigned_lower : ∀ (ops : List Op) (st : MemStorage),
    ∀ i ∈ mediaIdsAssigned st ops, st.nextMediaId ≤ i := by
  intro ops
  induction ops with
  | nil =>
    intro st i hi
    simp [mediaIdsAssigned] at hi
  | cons op ops ih =>
    intro st i hi
    simp only [mediaIdsAssigned, List.mem_append] at hi
    rcases hi with hi | hi
    · cases op <;> simp [mediaIdHere] at hi
      omega
    · exact Nat.le_trans (applyOp_counter_mono st op).2.1 (ih _ i hi)

/-- Every contact id assigned along a run is at least the counter value
at the start of the run. -/
theorem contactIdsAssigned_lower : ∀ (ops : List Op) (st : MemStorage),
    ∀ i ∈ contactIdsAssigned st ops, st.nextContactId ≤ i := by
  intro ops
  induction ops with
  | nil =>
    intro st i hi
    simp [contactIdsAssigned] at hi
  | cons op ops ih =>
    intro st i hi
    simp only [contactIdsAssigned, List.mem_append] at hi
    rcases hi with hi | hi
    · cases op <;> simp [contactIdHere] at hi
      omega
    · exact Nat.le_trans (applyOp_counter_mono st op).2.2 (ih _ i hi)

/-- The project ids assigned along any run are strictly increasing. -/
theorem projectIdsAssigned_chain : ∀ (ops : List Op) (st : MemStorage),
    List.Chain' (· < ·) (projectIdsAssigned st ops) := by
  intro ops
  induction ops with
  | nil => intro st; simp [projectIdsAssigned]
  | cons op ops ih =>
    intro st
    cases op
    case doCreateProject d now =>
      simp only [projectIdsAssigned, projectIdHere, List.singleton_append]
      refine List.chain'_cons'.mpr ⟨?_, ih _⟩
      intro y hy
      have h1 : (applyOp st (.doCreateProject d now)).nextProjectId ≤ y :=
        projectIdsAssigned_lower _ _ y (List.mem_of_mem_head? hy)
      have h2 : (applyOp st (.doCreateProject d now)).nextProjectId =
          st.nextProjectId + 1 := by
        rw [applyOp, createProject_state]
      omega
    all_goals simp only [projectIdsAssigned, projectIdHere, List.nil_append]
    all_goals exact ih _

/-- The media ids assigned along any run are strictly increasing. -/
theorem mediaIdsAssigned_chain : ∀ (ops : List Op) (st : MemStorage),
    List.Chain' (· < ·) (mediaIdsAssigned st ops) := by
  intro ops
  induction ops with
  | nil => intro st; simp [mediaIdsAssigned]
  | cons op ops ih =>
    intro st
    cases op
    case doCreateMedia d now =>
      simp only [mediaIdsAssigned, mediaIdHere, List.singleton_append]
      refine List.chain'_cons'.mpr ⟨?_, ih _⟩
      intro y hy
      have h1 : (applyOp st (.doCreateMedia d now)).nextMediaId ≤ y :=
        mediaIdsAssigned_lower _ _ y (List.mem_of_mem_head? hy)
      have h2 : (applyOp st (.doCreateMedia d now)).nextMediaId =
          st.nextMediaId + 1 := by
        rw [applyOp, createMedia_state]
      omega
    all_goals simp only [mediaIdsAssigned, mediaIdHere, List.nil_append]
    all_goals exact ih _

/-- The contact ids assigned along any run are strictly increasing. -/
theorem contactIdsAssigned_chain : ∀ (ops : List Op) (st : MemStorage),
    List.Chain' (· < ·) (contactIdsAssigned st ops) := by
  intro ops
  induction ops with
  | nil => intro st; simp [contactIdsAssigned]
  | cons op ops ih =>
    intro st
    cases op
    case doCreateContact d now =>
      simp only [contactIdsAssigned, contactIdHere, List.singleton_append]
      refine List.chain'_cons'.mpr ⟨?_, ih _⟩
      intro y hy
      have h1 : (applyOp st (.doCreateContact d now)).nextContactId ≤ y :=
        contactIdsAssigned_lower _ _ y (List.mem_of_mem_head? hy)
      have h2 : (applyOp st (.doCreateContact d now)).nextContactId =
          st.nextContactId + 1 := by
        rw [applyOp, createContact_state]
      omega
    all_goals simp only [contactIdsAssigned, contactIdHere, List.nil_append]
    all_goals exact ih _

/-- The reachable-state invariant: every live id is below its counter,
and no two live records of one entity type share an id. -/
structure Inv (st : MemStorage) : Prop where
  projBound : ∀ pr ∈ st.projects, pr.1 < st.nextProjectId
  projNodup : (st.projects.map Prod.fst).Nodup
  mediaBound : ∀ pr ∈ st.media, pr.1 < st.nextMediaId
  mediaNodup : (st.media.map Prod.fst).Nodup
  contactBound : ∀ pr ∈ st.contacts, pr.1 < st.nextContactId
  contactNodup : (st.contacts.map Prod.fst).Nodup

/-- The fresh store satisfies the invariant. -/
theorem inv_init : Inv MemStorage.init := by
  refine ⟨?_, ?_, ?_, ?_, ?_, ?_⟩ <;> simp [MemStorage.init]

/-- Inserting a fresh entry under the counter key, then bumping the
counter, preserves a bound-and-nodup pair. -/
theorem bound_nodup_insert {α : Type} {l : List (Nat × α)} {n : Nat} (v : α)
    (hb : ∀ pr ∈ l, pr.1 < n) (hn : (l.map Prod.fst).Nodup) :
    (∀ pr ∈ setEntry n v l, pr.1 < n + 1) ∧
    ((setEntry n v l).map Prod.fst).Nodup := by
  have hnone : lookupEntry n l = none :=
    lookupEntry_eq_none_of_forall fun pr hpr => Nat.ne_of_lt (hb pr hpr)
  rw [setEntry_of_lookup_none v hnone]
  constructor
  · intro pr hpr
    rcases List.mem_append.mp hpr with h | h
    · exact Nat.lt_succ_of_lt (hb pr h)
    · simp only [List.mem_singleton] at h
      subst h
      exact Nat.lt_succ_self n
  · rw [List.map_append]
    refine List.Nodup.append hn (by simp) ?_
    intro a ha ha'
    simp only [List.map_cons, List.map_nil, List.mem_singleton] at ha'
    rcases List.mem_map.mp ha with ⟨pr, hpr, rfl⟩
    exact Nat.ne_of_lt (hb pr hpr) ha'

/-- Rewriting an existing entry in place preserves a bound-and-nodup
pair for any counter. -/
theorem bound_nodup_replace {α : Type} {l : List (Nat × α)} {k n : Nat} {w : α} (v : α)
    (hk : lookupEntry k l = some w)
    (hb : ∀ pr ∈ l, pr.1 < n) (hn : (l.map Prod.fst).Nodup) :
    (∀ pr ∈ setEntry k v l, pr.1 < n) ∧
    ((setEntry k v l).map Prod.fst).Nodup := by
  constructor
  · intro pr hpr
    rcases mem_setEntry hpr with h | h
    · subst h
      exact hb (k, w) (lookup_some_mem hk)
    · exact hb pr h
  · rw [setEntry_map_fst_of_lookup_some v hk]
    exact hn

/-- Dropping entries preserves a bound-and-nodup pair. -/
theorem bound_nodup_del {α : Type} {l : List (Nat × α)} {k n : Nat}
    (hb : ∀ pr ∈ l, pr.1 < n) (hn : (l.map Prod.fst).Nodup) :
    (∀ pr ∈ delEntry k l, pr.1 < n) ∧
    ((delEntry k l).map Prod.fst).Nodup := by
  have hsub := delEntry_sublist k l
  exact ⟨fun pr hpr => hb pr (hsub.mem hpr), hn.sublist (hsub.map Prod.fst)⟩

/-- Every interface call preserves the invariant. -/
theorem inv_applyOp {st : MemStorage} (h : Inv st) (op : Op) : Inv (applyOp st op) := by
  cases op with
  | doUpsertUser u now =>
    simp only [applyOp]
    cases hres : st.upsertUser u now with
    | error e => exact h
    | ok r =>
      obtain ⟨h1, h2, h3, h4, h5, h6⟩ := upsertUser_ok_frame hres
      refine ⟨?_, ?_, ?_, ?_, ?_, ?_⟩
      · rw [h1, h4]; exact h.projBound
      · rw [h1]; exact h.projNodup
      · rw [h2, h5]; exact h.mediaBound
      · rw [h2]; exact h.mediaNodup
      · rw [h3, h6]; exact h.contactBound
      · rw [h3]; exact h.contactNodup
  | doCreateProject d now =>
    rw [applyOp, createProject_state]
    obtain ⟨hb, hn⟩ := bound_nodup_insert (st.createProject d now).1 h.projBound h.projNodup
    exact ⟨hb, hn, h.mediaBound, h.mediaNodup, h.contactBound, h.contactNodup⟩
  | doUpdateProject id d now =>
    simp only [applyOp]
    cases hres : st.updateProject id d now with
    | error e => exact h
    | ok r =>
      obtain ⟨⟨ex, hex, hproj⟩, h2, h3, h4, h5, h6, h7⟩ := updateProject_ok_frame hres
      obtain ⟨hb, hn⟩ := bound_nodup_replace (applyPatch ex d now) hex h.projBound h.projNodup
      refine ⟨?_, ?_, ?_, ?_, ?_, ?_⟩
      · rw [hproj, h5]; exact hb
      · rw [hproj]; exact hn
      · rw [h3, h6]; exact h.mediaBound
      · rw [h3]; exact h.mediaNodup
      · rw [h4, h7]; exact h.contactBound
      · rw [h4]; exact h.contactNodup
  | doDeleteProject id =>
    obtain ⟨hb, hn⟩ := bound_nodup_del (k := id) h.projBound h.projNodup
    exact ⟨hb, hn, h.mediaBound, h.mediaNodup, h.contactBound, h.contactNodup⟩
  | doCreateMedia d now =>
    rw [applyOp, createMedia_state]
    obtain ⟨hb, hn⟩ := bound_nodup_insert (st.createMedia d now).1 h.mediaBound h.mediaNodup
    exact ⟨h.projBound, h.projNodup, hb, hn, h.contactBound, h.contactNodup⟩
  | doDeleteMedia id =>
    obtain ⟨hb, hn⟩ := bound_nodup_del (k := id) h.mediaBound h.mediaNodup
    exact ⟨h.projBound, h.projNodup, hb, hn, h.contactBound, h.contactNodup⟩
  | doCreateContact d now =>
    rw [applyOp, createContact_state]
    obtain ⟨hb, hn⟩ := bound_nodup_insert (st.createContact d now).1 h.contactBound h.contactNodup
    exact ⟨h.projBound, h.projNodup, h.mediaBound, h.mediaNodup, hb, hn⟩
  | doUpdateContactStatus id s =>
    rcases updateContactStatus_cases st id s with hcase | ⟨c, hc, hcase⟩
    · rw [applyOp, hcase]; exact h
    · rw [applyOp, hcase]
      obtain ⟨hb, hn⟩ :=
        bound_nodup_replace { c with status := s } hc h.contactBound h.contactNodup
      exact ⟨h.projBound, h.projNodup, h.mediaBound, h.mediaNodup, hb, hn⟩

/-- The invariant holds after any run from an invariant state. -/
theorem inv_run : ∀ (ops : List Op) (st : MemStorage), Inv st → Inv (run st ops) := by
  intro ops
  induction ops with
  | nil => intro st h; exact h
  | cons op ops ih => intro st h; exact ih _ (inv_applyOp h op)

/-- C8: along every finite sequence of interface calls from a fresh
store, the project, media and contact ids handed out by the creates form
strictly increasing lists, so an id is never assigned twice even after
the record holding it is deleted; and in the final store no two live
records of one entity type share an id. -/
theorem ids_never_reused (ops : List Op) :
    List.Chain' (· < ·) (projectIdsAssigned MemStorage.init ops) ∧
    List.Chain' (· < ·) (mediaIdsAssigned MemStorage.init ops) ∧
    List.Chain' (· < ·) (contactIdsAssigned MemStorage.init ops) ∧
    ((run MemStorage.init ops).projects.map Prod.fst).Nodup ∧
    ((run MemStorage.init ops).media.map Prod.fst).Nodup ∧
    ((run MemStorage.init ops).contacts.map Prod.fst).Nodup :=
  ⟨projectIdsAssigned_chain ops _, mediaIdsAssigned_chain ops _,
   contactIdsAssigned_chain ops _, (inv_run ops _ inv_init).projNodup,
   (inv_run ops _ inv_init).mediaNodup, (inv_run ops _ inv_init).contactNodup⟩

end PortfolioStorage
